import Mathlib

/-!
Verification development for the `voice-acc-app` backend (`application.py`).

Text is shallowly embedded as `List Char` ("Str").  Python string methods
(`lower`, `strip`, regex word-boundary search, substring `in`) are embedded
as executable Lean functions over `Str`.  The embedding of `lower` and of
diacritic removal (`unicodedata.NFD` + dropping combining marks) is a
character table covering ASCII plus the Latin accented letters that occur in
this application's category labels, synonym tables and French text; Python's
`\w` word class is modelled on the same post-normalization alphabet
(ASCII letters, digits, underscore).
-/

namespace VoiceApp

abbrev Str := List Char

/-- Python `\s` whitespace class (characters relevant to `str.strip` and
`re.sub(r'\s+', ' ')`): space, tab, newline, carriage return, vertical tab,
form feed. -/
def isSpaceChar (c : Char) : Bool :=
  c = ' ' || c = '\t' || c = '\n' || c = '\r' ||
  c = Char.ofNat 11 || c = Char.ofNat 12

/-- Python `\w` word-character class on the post-normalization alphabet:
ASCII letters, ASCII digits, underscore. -/
def isWordChar (c : Char) : Bool :=
  c.isAlpha || c.isDigit || c = '_'

/-- `str.lower()` on one character: ASCII plus the Latin accented capitals
used in this application. -/
def charLower (c : Char) : Char :=
  if 'A' ≤ c && c ≤ 'Z' then Char.ofNat (c.toNat + 32)
  else match c with
    | 'À' => 'à' | 'Â' => 'â' | 'Ä' => 'ä' | 'Ç' => 'ç'
    | 'É' => 'é' | 'È' => 'è' | 'Ê' => 'ê' | 'Ë' => 'ë'
    | 'Î' => 'î' | 'Ï' => 'ï' | 'Ô' => 'ô' | 'Ö' => 'ö'
    | 'Ù' => 'ù' | 'Û' => 'û' | 'Ü' => 'ü'
    | _ => c

/-- NFD decomposition followed by dropping combining marks, on one lowercase
character: strips the accent off the Latin accented letters used here. -/
def deaccent (c : Char) : Char :=
  match c with
  | 'à' => 'a' | 'â' => 'a' | 'ä' => 'a' | 'ç' => 'c'
  | 'é' => 'e' | 'è' => 'e' | 'ê' => 'e' | 'ë' => 'e'
  | 'î' => 'i' | 'ï' => 'i' | 'ô' => 'o' | 'ö' => 'o'
  | 'ù' => 'u' | 'û' => 'u' | 'ü' => 'u'
  | _ => c

/-- Python `str.lower()`. -/
def pyLower (s : Str) : Str := s.map charLower

/-- Python `str.strip()`: drop leading and trailing whitespace. -/
def pyStrip (s : Str) : Str :=
  ((s.dropWhile isSpaceChar).reverse.dropWhile isSpaceChar).reverse

/-- `_normalize_text` from `application.py`: lower-case, strip, then remove
diacritics (NFD decomposition, drop combining marks). -/
def _normalize_text (s : Str) : Str :=
  (pyStrip (pyLower s)).map deaccent

/-- Python substring containment `needle in hay`. -/
def strIn (needle : Str) : Str → Bool
  | [] => needle.isEmpty
  | c :: rest => needle.isPrefixOf (c :: rest) || strIn needle rest

/-! ### `clean_text`: HTML-tag removal, whitespace collapsing, truncation -/

/-- Scanner for `re.sub(r'<[^>]+>', '', text)`.  The first argument is
`none` outside a candidate tag and `some buf` inside one, `buf` holding the
characters seen since the opening `<` in reverse order.  A `<...>` group with
at least one character between the brackets is removed; `<>` and an unclosed
`<` are kept verbatim, exactly as the regex leaves them. -/
def stripTagsAux : Option Str → Str → Str
  | none, [] => []
  | none, c :: rest =>
      if c = '<' then stripTagsAux (some []) rest else c :: stripTagsAux none rest
  | some buf, [] => '<' :: buf.reverse
  | some buf, c :: rest =>
      if c = '>' then
        if buf = [] then '<' :: '>' :: stripTagsAux none rest
        else stripTagsAux none rest
      else stripTagsAux (some (c :: buf)) rest

def stripTags (s : Str) : Str := stripTagsAux none s

/-- `re.sub(r'\s+', ' ', text)`: collapse each run of whitespace to a single
space.  The Boolean flag records whether the previous character was part of a
whitespace run. -/
def collapseWsAux : Bool → Str → Str
  | _, [] => []
  | prevSpace, c :: rest =>
      if isSpaceChar c then
        (if prevSpace then [] else [' ']) ++ collapseWsAux true rest
      else c :: collapseWsAux false rest

/-- `clean_text` from `application.py`: remove HTML tags, collapse
whitespace, strip, and truncate to `maxLength` characters with a `...`
marker.  The call sites use the default `maxLength = 200`. -/
def clean_text (text : Str) (maxLength : Nat) : Str :=
  let t := pyStrip (collapseWsAux false (stripTags text))
  if maxLength < t.length then t.take maxLength ++ ('.' :: '.' :: '.' :: []) else t

/-! ### Word-boundary search: `re.search(rf'\b{re.escape(v)}s?\b', q)` -/

/-- If `v` is a prefix of `q`, return the remainder of `q`. -/
def matchRest : Str → Str → Option Str
  | [], q => some q
  | _ :: _, [] => none
  | a :: v, b :: q => if a = b then matchRest v q else none

/-- `\b` after a word character: true at end of string or before a
non-word character. -/
def boundaryAfter : Str → Bool
  | [] => true
  | c :: _ => !isWordChar c

/-- Match `v` optionally followed by `'s'`, then a `\b`, at the very start
of `q` (the leading `\b` is checked by the caller). -/
def matchAt (v q : Str) : Bool :=
  match matchRest v q with
  | none => false
  | some rest =>
      boundaryAfter rest ||
        (match rest with
         | c :: rest2 => c = 's' && boundaryAfter rest2
         | [] => false)

/-- Scan `q` left to right for a match of `\b v s? \b`; `prevW` records
whether the character before the current position is a word character (the
leading `\b` holds exactly when it is not, since `v` starts with a word
character for every category label). -/
def searchWordAux (v : Str) : Bool → Str → Bool
  | _, [] => false
  | prevW, c :: rest =>
      (!prevW && matchAt v (c :: rest)) || searchWordAux v (isWordChar c) rest

/-- `re.search(rf'\b{re.escape(v)}s?\b', q) is not None`. -/
def searchWord (v q : Str) : Bool := searchWordAux v false q

/-! ### Classifier data -/

/-- `CLASSIFIER_CATEGORIES` from `application.py` (order matters). -/
def CLASSIFIER_CATEGORIES : List Str :=
  [ "politique", "économie", "sport", "culture",
    "santé", "technologie", "environnement", "international",
    "science", "éducation", "voyages", "loisirs",
    "business", "justice", "sécurité", "météo",
    "divertissement", "startup", "immobilier", "automobile",
    "alimentaire", "mode", "santé-mentale", "énergie",
    "autre" ].map String.toList

/-- `CATEGORY_TERMS` from `application.py`.  Defined at module level in the
source and never consulted by any function. -/
def CATEGORY_TERMS : List (Str × List Str) :=
  [ ("sport", ["football", "tennis", "rugby", "olympique", "coupe", "championnat", "sportif", "sports"]),
    ("politique", ["gouvernement", "assemblée", "président", "ministre", "élection", "parlement", "politique"]),
    ("économie", ["finance", "bourse", "entreprise", "marché", "budget", "inflation", "économique", "économie"]),
    ("culture", ["culture", "art", "cinéma", "musique", "exposition", "théâtre", "livre"]),
    ("santé", ["santé", "médecine", "hôpital", "vaccin", "épidémie", "bien-être"]),
    ("technologie", ["technologie", "tech", "ia", "intelligence artificielle", "numérique", "startup"]),
    ("environnement", ["climat", "écologie", "pollution", "biodiversité", "recyclage", "environnement"]),
    ("international", ["international", "étranger", "diplomatie", "monde", "relations internationales"]),
    ("science", ["science", "recherche", "découverte", "physique", "biologie"]),
    ("éducation", ["éducation", "école", "université", "enseignement", "formation"]),
    ("voyages", ["voyage", "tourisme", "vol", "destination", "hôtel"]),
    ("loisirs", ["loisir", "hobby", "jeux", "événement", "festival"]),
    ("business", ["business", "entrepreneuriat", "startup", "investissement"]),
    ("justice", ["justice", "tribunal", "procès", "juridique"]),
    ("sécurité", ["sécurité", "police", "terrorisme", "sécurité nationale"]),
    ("météo", ["météo", "tempête", "climat", "alerte"]),
    ("divertissement", ["divertissement", "people", "télévision", "cinéma", "série"]),
    ("startup", ["startup", "levée de fonds", "incubateur"]),
    ("immobilier", ["immobilier", "logement", "prix immobilier"]),
    ("automobile", ["automobile", "voiture", "autonomie", "véhicule"]),
    ("alimentaire", ["alimentaire", "restauration", "nutrition", "aliment"]),
    ("mode", ["mode", "fashion", "défilé", "créateur"]),
    ("santé-mentale", ["dépression", "bien-être mental", "psychologie"]),
    ("énergie", ["énergie", "pétrole", "gazière", "renouvelable"]),
    ("autre", []) ].map (fun p => (p.1.toList, p.2.map String.toList))

/-- The loop body of `classify_with_keywords`: first category whose
normalized label occurs as a whole word (with optional trailing `s`) in the
normalized query, else the catch-all `"autre"`. -/
def keywordLoop (qlow : Str) : List Str → Str
  | [] => "autre".toList
  | v :: rest =>
      if searchWord (_normalize_text v) qlow then v else keywordLoop qlow rest

/-- `classify_with_keywords` from `application.py`. -/
def classify_with_keywords (q : Str) : Str :=
  keywordLoop (_normalize_text q) CLASSIFIER_CATEGORIES

/-! ### Remote classifier adapter (`classify_query_with_mistral`)

The remote call `mistral.chat(...)` together with the response-extraction
code is a black box from the function's point of view: it either raises an
exception or produces some raw response text.  It is embedded as an oracle
value of type `MistralOutcome`; the `raised` constructor carries the
exception's string rendering `str(e)`. -/

inductive MistralOutcome where
  | raised (msg : Str)
  | returned (raw : Str)
deriving DecidableEq, Repr

/-- The observable result of `classify_query_with_mistral`: the returned
`(category, raw)` pair plus whether the remote service was invoked. -/
structure ClassifyResult where
  category : Str
  raw : Str
  invokedRemote : Bool
deriving DecidableEq, Repr

/-- `classify_query_with_mistral` from `application.py`.  `mistralOk`
models `mistral is not None` (client configured); `oracle` models the
outcome of the guarded remote call.  Every branch, including a raised
exception, produces a plain `ClassifyResult`: the `try/except` wrapping the
remote call maps `raised` to the keyword fallback. -/
def classify_query_with_mistral (q : Str) (mistralOk : Bool)
    (oracle : MistralOutcome) : ClassifyResult :=
  if q = [] then ⟨"autre".toList, "no_query".toList, false⟩
  else if !mistralOk then
    ⟨classify_with_keywords q, "mistral_unavailable".toList, false⟩
  else
    match oracle with
    | .raised msg =>
        ⟨classify_with_keywords q, "mistral_error:".toList ++ msg, true⟩
    | .returned raw =>
        let rawText := pyLower (pyStrip raw)
        match CLASSIFIER_CATEGORIES.find? (fun c => strIn c rawText) with
        | some cat => ⟨cat, rawText, true⟩
        | none =>
            ⟨classify_with_keywords q, "no_category_found:".toList ++ rawText, true⟩

/-! ### Article aggregation (`fetch_news`) -/

/-- A produced article record (the dict built per feed entry). -/
structure Article where
  title : Str
  summary : Str
  link : Str
  published : Str
  source : Str
  tags : List Str
deriving DecidableEq, Repr

/-- A raw feed entry as seen through `entry.get(...)` / `hasattr(entry, ...)`:
each field is `none` when the key/attribute is absent. -/
structure Entry where
  title : Option Str
  summary : Option Str
  description : Option Str
  link : Option Str
  published : Option Str
  updated : Option Str
  tags : Option (List Str)
deriving DecidableEq, Repr

/-- Outcome of `feedparser.parse` for one source: the fetch/parse call
itself raised, or it produced a feed with a `bozo` flag and entries. -/
inductive FeedResult where
  | raised (msg : Str)
  | parsed (bozo : Bool) (entries : List Entry)
deriving DecidableEq, Repr

/-- The placeholder article appended when a source's feed has `bozo` set. -/
def errArticle (name now : Str) : Article :=
  { title := "[Problème] ".toList ++ name ++ " - Flux temporairement indisponible".toList
  , summary := "Impossible de récupérer les actualités de ".toList ++ name
  , link := []
  , published := now
  , source := name
  , tags := ["erreur".toList] }

/-- The single fallback article returned when the whole pipeline fails. -/
def fallbackArticle (now : Str) : Article :=
  { title := "Actualités temporairement indisponibles".toList
  , summary := "Nous rencontrons des difficultés techniques. Veuillez réessayer dans quelques instants.".toList
  , link := []
  , published := now
  , source := "Système".toList
  , tags := ["erreur".toList] }

/-- Per-entry extraction in `fetch_news`: defaults for missing fields,
summary cleaned via `clean_text` with the default 200-character cap,
`published` falling back to `updated` when absent or empty. -/
def mkArticle (name : Str) (e : Entry) : Article :=
  { title := e.title.getD "Sans titre".toList
  , summary := clean_text ((e.summary.getD (e.description.getD []))) 200
  , link := e.link.getD []
  , published :=
      let p := e.published.getD []
      if p = [] then (match e.updated with | some u => u | none => p) else p
  , source := name
  , tags := e.tags.getD [] }

/-- The body of `fetch_news`'s per-source loop iteration: a raised fetch
logs and contributes nothing (`continue`); a `bozo` feed contributes the
single placeholder; an empty entry list contributes nothing (`continue`);
otherwise the first 5 entries are extracted. -/
def perSource (now name : Str) : FeedResult → List Article
  | .raised _ => []
  | .parsed true _ => [errArticle name now]
  | .parsed false entries =>
      if entries = [] then []
      else (entries.take 5).map (mkArticle name)

/-- The accumulation loop of `fetch_news` over the source list (Python
appends per source, i.e. concatenation in source order). -/
def fetchSources (now : Str) : List (Str × FeedResult) → List Article
  | [] => []
  | (name, fr) :: rest => perSource now name fr ++ fetchSources now rest

/-- `fetch_news` from `application.py`.  The argument is the outcome of
iterating the configured sources: `.error` models the outer `try/except`
catching an unexpected failure of the whole pipeline, which yields the
single fallback article instead of propagating. -/
def fetch_news (now : Str) (feeds : Except Str (List (Str × FeedResult))) :
    List Article :=
  match feeds with
  | .error _ => [fallbackArticle now]
  | .ok srcs => fetchSources now srcs

/-! ### Cache (`news_cache` / `get_cached_news`) -/

/-- The mutable `news_cache` dict: optional data and optional timestamp.
Timestamps are modelled as integer seconds. -/
structure NewsCache where
  data : Option (List Article)
  timestamp : Option Int
deriving DecidableEq, Repr

/-- `news_cache['duration'] = timedelta(minutes=5)`, in seconds. -/
def cache_duration : Int := 5 * 60

/-- `get_cached_news` from `application.py`: return the data only when both
fields are present and the age is strictly below the duration. -/
def get_cached_news (c : NewsCache) (now : Int) : Option (List Article) :=
  match c.data, c.timestamp with
  | some d, some t => if now - t < cache_duration then some d else none
  | _, _ => none

/-! ### Topic filter (`filter_articles_by_topic`) -/

/-- The `topic_synonyms` dict local to `filter_articles_by_topic`. -/
def topic_synonyms : List (Str × List Str) :=
  [ ("sport", ["sport", "football", "tennis", "rugby", "basket", "athlétisme", "championnat", "match", "joueur", "équipe", "coupe", "olympique"]),
    ("politique", ["politique", "gouvernement", "président", "ministre", "élection", "parlement", "assemblée", "parti", "vote", "député"]),
    ("économie", ["économie", "économique", "finance", "bourse", "entreprise", "marché", "budget", "inflation", "euro", "dollar"]),
    ("technologie", ["technologie", "tech", "numérique", "internet", "smartphone", "ordinateur", "ia", "intelligence artificielle", "innovation"]),
    ("santé", ["santé", "médecin", "hôpital", "maladie", "vaccin", "médical", "patient", "traitement"]),
    ("culture", ["culture", "culturel", "art", "musée", "exposition", "livre", "film", "cinéma", "musique", "théâtre"]),
    ("environnement", ["environnement", "écologie", "climat", "réchauffement", "pollution", "vert", "durable"]),
    ("international", ["international", "monde", "étranger", "diplomatie", "onu", "conflit", "paix"]) ].map
    (fun p => (p.1.toList, p.2.map String.toList))

/-- `topic_synonyms.get(key, [key])`. -/
def synonymsFor (key : Str) : List Str :=
  match topic_synonyms.find? (fun p => p.1 = key) with
  | some p => p.2
  | none => [key]

/-- The combined lower-cased search text
`f"{title} {summary} {source} {' '.join(tags)}"` for one article. -/
def articleSearchText (a : Article) : Str :=
  pyLower a.title ++ [' '] ++ pyLower a.summary ++ [' '] ++ pyLower a.source
    ++ [' '] ++ List.intercalate [' '] (a.tags.map pyLower)

/-- `filter_articles_by_topic` from `application.py`: empty topic returns
the input; otherwise keep, in order, the articles whose combined search text
contains any of the topic's search terms as a substring. -/
def filter_articles_by_topic (articles : List Article) (topic : Str) :
    List Article :=
  if topic = [] then articles
  else
    let topicLower := pyStrip (pyLower topic)
    let searchTerms := synonymsFor topicLower
    articles.filter (fun a =>
      searchTerms.any (fun t => strIn t (articleSearchText a)))

/-! ### `/api/news` handler (`get_news`) -/

/-- Valid continuation of a Python `int()` digit run after an initial
digit: digits, with single underscores allowed only between digits. -/
def digitRunValidAux : Str → Bool
  | [] => true
  | '_' :: d :: rest => d.isDigit && digitRunValidAux rest
  | '_' :: [] => false
  | c :: rest => c.isDigit && digitRunValidAux rest

/-- A valid unsigned digit run for Python `int()`: nonempty, starts and
ends with a digit, single underscores only between digits. -/
def digitRunValid : Str → Bool
  | [] => false
  | c :: rest => c.isDigit && digitRunValidAux rest

/-- Decimal value of a digit run, skipping underscores. -/
def digitsValue (s : Str) : Nat :=
  s.foldl (fun acc c => if c.isDigit then acc * 10 + (c.toNat - 48) else acc) 0

/-- Python `int(s)` for a decimal string: strip whitespace, optional sign,
then a valid digit run; `none` models the raised `ValueError`. -/
def pyInt (s : Str) : Option Int :=
  match pyStrip s with
  | '+' :: r => if digitRunValid r then some (Int.ofNat (digitsValue r)) else none
  | '-' :: r => if digitRunValid r then some (-(Int.ofNat (digitsValue r))) else none
  | r => if digitRunValid r then some (Int.ofNat (digitsValue r)) else none

/-- Python `l[:n]` for a possibly negative `n`. -/
def pySlice {α : Type} (n : Int) (l : List α) : List α :=
  if 0 ≤ n then l.take n.toNat else l.take (l.length - (-n).toNat)

/-- The query parameters of a `GET /api/news` request; each is `none` when
absent.  (The `logged` flag only gates the best-effort search logging,
which has no effect on the response.) -/
structure NewsParams where
  topic : Option Str
  source : Option Str
  limit : Option Str
deriving DecidableEq, Repr

/-- Observable outcome of the `get_news` handler: a JSON article list, or
an HTTP 400 with the given `error` field. -/
inductive NewsResponse where
  | ok (articles : List Article)
  | badRequest (error : Str)
deriving DecidableEq, Repr

/-- The article pipeline of `get_news` after parameter parsing: fetch,
topic filter when `topic` is nonempty, case-insensitive source substring
filter when `source` is nonempty, then `[:limit]`. -/
def buildNews (topic sourceF : Str) (limit : Int) (now : Str)
    (feeds : Except Str (List (Str × FeedResult))) : List Article :=
  let articles := fetch_news now feeds
  let articles := if topic = [] then articles else filter_articles_by_topic articles topic
  let articles :=
    if sourceF = [] then articles
    else articles.filter (fun a => strIn sourceF (pyLower a.source))
  pySlice limit articles

/-- `get_news` from `application.py`: parse `topic` (lowered, stripped),
`source` (lowered) and `limit` (`int()` of the parameter, default 20).
`int()` raising `ValueError` — a present but unparseable `limit` — is
caught and answered with HTTP 400 `{'error': 'Paramètre invalide'}`;
best-effort search logging has no observable effect on the response. -/
def get_news_handler (p : NewsParams) (now : Str)
    (feeds : Except Str (List (Str × FeedResult))) : NewsResponse :=
  let topic := pyStrip (pyLower (p.topic.getD []))
  let sourceF := pyLower (p.source.getD [])
  match p.limit with
  | none => .ok (buildNews topic sourceF 20 now feeds)
  | some s =>
      match pyInt s with
      | none => .badRequest "Paramètre invalide".toList
      | some n => .ok (buildNews topic sourceF n now feeds)

/-! ## Lemmas -/

/-- `matchRest` succeeds exactly on prefixes, returning the remainder. -/
theorem matchRest_eq_some (v : Str) :
    ∀ (q rest : Str), matchRest v q = some rest ↔ q = v ++ rest := by
  induction v with
  | nil =>
    intro q rest
    simp [matchRest, eq_comm]
  | cons a v ih =>
    intro q rest
    cases q with
    | nil => simp [matchRest]
    | cons b q =>
      by_cases hab : a = b
      · subst hab
        simp [matchRest, ih]
      · constructor
        · intro h
          simp [matchRest, hab] at h
        · intro h
          rw [List.cons_append] at h
          injection h with h1 _
          exact absurd h1.symm hab

/-- Declarative reading of `matchAt`: some prefix of `q` is `v` or `v ++ "s"`
followed by a word boundary. -/
theorem matchAt_iff (v q : Str) :
    matchAt v q = true ↔
      ∃ mid post, q = mid ++ post ∧ (mid = v ∨ mid = v ++ ['s']) ∧
        boundaryAfter post = true := by
  constructor
  · intro h
    unfold matchAt at h
    cases hm : matchRest v q with
    | none => rw [hm] at h; simp at h
    | some rest =>
      rw [hm] at h
      dsimp only at h
      have hq : q = v ++ rest := (matchRest_eq_some v q rest).mp hm
      rw [Bool.or_eq_true] at h
      rcases h with hb | h
      · exact ⟨v, rest, hq, Or.inl rfl, hb⟩
      · cases rest with
        | nil => simp at h
        | cons c rest2 =>
          rw [Bool.and_eq_true] at h
          obtain ⟨hc, hb2⟩ := h
          have hc' : c = 's' := by simpa using hc
          subst hc'
          refine ⟨v ++ ['s'], rest2, ?_, Or.inr rfl, hb2⟩
          simpa using hq
  · rintro ⟨mid, post, hq, hmid | hmid, hb⟩
    · rw [hmid] at hq
      have hm : matchRest v q = some post := (matchRest_eq_some v q post).mpr hq
      unfold matchAt
      rw [hm]
      dsimp only
      rw [hb, Bool.true_or]
    · rw [hmid] at hq
      have hq' : q = v ++ 's' :: post := by simpa using hq
      have hm : matchRest v q = some ('s' :: post) :=
        (matchRest_eq_some v q _).mpr hq'
      unfold matchAt
      rw [hm]
      dsimp only
      simp [hb]

/-- The leading `\b` condition at the start of the candidate match, relative
to the scanning state: either we are at the very beginning of the string and
the virtual previous character is a non-word one, or the consumed part ends
in a non-word character. -/
def preBound (prevW : Bool) (pre : Str) : Prop :=
  (pre = [] ∧ prevW = false) ∨
    ∃ pre2 c, pre = pre2 ++ [c] ∧ isWordChar c = false

/-- Declarative reading of the scanner `searchWordAux`. -/
theorem searchWordAux_iff (v : Str) (hv : v ≠ []) :
    ∀ (q : Str) (prevW : Bool),
      searchWordAux v prevW q = true ↔
        ∃ pre mid post, q = pre ++ (mid ++ post) ∧
          (mid = v ∨ mid = v ++ ['s']) ∧ preBound prevW pre ∧
          boundaryAfter post = true := by
  intro q
  induction q with
  | nil =>
    intro prevW
    constructor
    · intro h; exact absurd h (by simp [searchWordAux])
    · rintro ⟨pre, mid, post, hq, hmid, -, -⟩
      have hmid' : mid ≠ [] := by
        rcases hmid with h | h <;> subst h <;> simp [hv]
      have := hq.symm
      simp only [List.append_eq_nil] at this
      exact absurd this.2.1 hmid'
  | cons c rest ih =>
    intro prevW
    simp only [searchWordAux, Bool.or_eq_true, Bool.and_eq_true]
    constructor
    · rintro (⟨hnp, hm⟩ | hrec)
      · have hp : prevW = false := by
          cases prevW
          · rfl
          · simp at hnp
        obtain ⟨mid, post, hq, hmid, hb⟩ := (matchAt_iff v (c :: rest)).mp hm
        exact ⟨[], mid, post, by simpa using hq, hmid, Or.inl ⟨rfl, hp⟩, hb⟩
      · obtain ⟨pre1, mid, post, hq, hmid, hpre, hb⟩ :=
          (ih (isWordChar c)).mp hrec
        refine ⟨c :: pre1, mid, post, by simp [hq], hmid, ?_, hb⟩
        rcases hpre with ⟨hpe, hw⟩ | ⟨pre2, c2, hpe, hw⟩
        · subst hpe
          exact Or.inr ⟨[], c, rfl, hw⟩
        · subst hpe
          exact Or.inr ⟨c :: pre2, c2, rfl, hw⟩
    · rintro ⟨pre, mid, post, hq, hmid, hpre, hb⟩
      cases pre with
      | nil =>
        have hp : prevW = false := by
          rcases hpre with ⟨-, hp⟩ | ⟨pre2, c2, hpe, -⟩
          · exact hp
          · exact absurd hpe (by simp)
        left
        subst hp
        refine ⟨rfl, ?_⟩
        exact (matchAt_iff v (c :: rest)).mpr ⟨mid, post, by simpa using hq, hmid, hb⟩
      | cons c0 pre1 =>
        rw [List.cons_append] at hq
        injection hq with hc0 hrest
        subst hc0
        right
        apply (ih (isWordChar c)).mpr
        refine ⟨pre1, mid, post, hrest, hmid, ?_, hb⟩
        rcases hpre with ⟨hpe, -⟩ | ⟨pre2, c2, hpe, hw⟩
        · exact absurd hpe (by simp)
        · cases pre2 with
          | nil =>
            simp only [List.nil_append, List.cons.injEq] at hpe
            obtain ⟨hc2, hpe1⟩ := hpe
            subst hc2
            exact Or.inl ⟨hpe1, hw⟩
          | cons d pre2' =>
            rw [List.cons_append] at hpe
            injection hpe with hd hpe1
            exact Or.inr ⟨pre2', c2, hpe1, hw⟩

/-- A whole-word occurrence of `v` (with an optional trailing pluralizing
`s`) in `q`: `q` splits as `pre ++ mid ++ post` where `mid` is `v` or
`v ++ "s"`, `pre` is empty or ends in a non-word character, and `post` is
empty or starts with a non-word character. -/
def wordOccurs (v q : Str) : Prop :=
  ∃ pre mid post, q = pre ++ (mid ++ post) ∧
    (mid = v ∨ mid = v ++ ['s']) ∧
    (pre = [] ∨ ∃ pre2 c, pre = pre2 ++ [c] ∧ isWordChar c = false) ∧
    (post = [] ∨ ∃ c post2, post = c :: post2 ∧ isWordChar c = false)

/-- `boundaryAfter` is the Boolean of the declarative `post` condition. -/
theorem boundaryAfter_iff (post : Str) :
    boundaryAfter post = true ↔
      (post = [] ∨ ∃ c post2, post = c :: post2 ∧ isWordChar c = false) := by
  cases post with
  | nil => simp [boundaryAfter]
  | cons c post2 => simp [boundaryAfter]

/-- The embedded regex search finds exactly the whole-word occurrences. -/
theorem searchWord_iff (v q : Str) (hv : v ≠ []) :
    searchWord v q = true ↔ wordOccurs v q := by
  unfold searchWord wordOccurs
  rw [searchWordAux_iff v hv q false]
  constructor
  · rintro ⟨pre, mid, post, hq, hmid, hpre, hb⟩
    refine ⟨pre, mid, post, hq, hmid, ?_, (boundaryAfter_iff post).mp hb⟩
    rcases hpre with ⟨hpe, -⟩ | h
    · exact Or.inl hpe
    · exact Or.inr h
  · rintro ⟨pre, mid, post, hq, hmid, hpre, hpost⟩
    refine ⟨pre, mid, post, hq, hmid, ?_, (boundaryAfter_iff post).mpr hpost⟩
    rcases hpre with hpe | h
    · exact Or.inl ⟨hpe, rfl⟩
    · exact Or.inr h

/-- The classification loop returns the first category whose normalized
label word-matches the normalized query, else the catch-all. -/
theorem keywordLoop_eq_find (qlow : Str) :
    ∀ l : List Str,
      keywordLoop qlow l =
        (l.find? (fun v => searchWord (_normalize_text v) qlow)).getD
          "autre".toList := by
  intro l
  induction l with
  | nil => rfl
  | cons v rest ih =>
    cases h : searchWord (_normalize_text v) qlow with
    | true => simp [keywordLoop, h, List.find?_cons_of_pos]
    | false => simp [keywordLoop, h, List.find?_cons_of_neg, ih]

/-- The classification loop yields the catch-all or an element of the
scanned list. -/
theorem keywordLoop_mem (qlow : Str) :
    ∀ l : List Str,
      keywordLoop qlow l = "autre".toList ∨ keywordLoop qlow l ∈ l := by
  intro l
  induction l with
  | nil => exact Or.inl rfl
  | cons v rest ih =>
    cases h : searchWord (_normalize_text v) qlow with
    | true =>
      right
      simp [keywordLoop, h]
    | false =>
      rcases ih with h2 | h2
      · left
        simpa [keywordLoop, h] using h2
      · right
        simp only [keywordLoop, h, if_neg Bool.false_ne_true]
        exact List.mem_cons_of_mem v h2

/-- The keyword classifier always answers within the fixed category list. -/
theorem classify_with_keywords_mem (q : Str) :
    classify_with_keywords q ∈ CLASSIFIER_CATEGORIES := by
  unfold classify_with_keywords
  rcases keywordLoop_mem (_normalize_text q) CLASSIFIER_CATEGORIES with h | h
  · rw [h]
    decide
  · exact h

/-- The source loop of `fetch_news` distributes over concatenation of the
source list. -/
theorem fetchSources_append (now : Str) (l1 l2 : List (Str × FeedResult)) :
    fetchSources now (l1 ++ l2) = fetchSources now l1 ++ fetchSources now l2 := by
  induction l1 with
  | nil => rfl
  | cons p rest ih =>
    obtain ⟨name, fr⟩ := p
    simp [fetchSources, ih]

/-! ## Claims -/

/-- C1.  For every query and every behaviour of the remote classifier
(modelled as an oracle that may raise or return arbitrary text),
`classify_query_with_mistral` produces a plain result — the embedding is
total over all oracle outcomes, mirroring the `try/except` that converts a
raised exception into the keyword fallback — and the returned category
always belongs to `CLASSIFIER_CATEGORIES`. -/
theorem classify_query_with_mistral_category_in_set :
    ∀ (q : Str) (mistralOk : Bool) (oracle : MistralOutcome),
      (classify_query_with_mistral q mistralOk oracle).category ∈
        CLASSIFIER_CATEGORIES := by
  intro q mok oracle
  by_cases hq : q = []
  · subst hq
    have h : classify_query_with_mistral [] mok oracle =
        ⟨"autre".toList, "no_query".toList, false⟩ := rfl
    rw [h]
    decide
  · unfold classify_query_with_mistral
    rw [if_neg hq]
    cases mok with
    | false => exact classify_with_keywords_mem q
    | true =>
      simp only [Bool.not_true, Bool.false_eq_true, if_false]
      cases oracle with
      | raised msg => exact classify_with_keywords_mem q
      | returned raw =>
        dsimp only
        cases hf : CLASSIFIER_CATEGORIES.find?
            (fun c => strIn c (pyLower (pyStrip raw))) with
        | none => exact classify_with_keywords_mem q
        | some cat => exact List.mem_of_find?_eq_some hf

/-- C2.  `classify_with_keywords` is total and deterministic: it always
returns a category of the fixed list, namely the first one (in list order)
whose normalized label occurs as a whole word — optionally with a trailing
pluralizing `s` — in the normalized query, and the catch-all `"autre"` when
none matches; whole-word occurrence is characterized declaratively by
`wordOccurs`. -/
theorem classify_with_keywords_spec :
    ∀ q : Str,
      classify_with_keywords q ∈ CLASSIFIER_CATEGORIES ∧
      classify_with_keywords q =
        (CLASSIFIER_CATEGORIES.find?
            (fun v => searchWord (_normalize_text v) (_normalize_text q))).getD
          "autre".toList ∧
      ∀ v ∈ CLASSIFIER_CATEGORIES,
        (searchWord (_normalize_text v) (_normalize_text q) = true ↔
          wordOccurs (_normalize_text v) (_normalize_text q)) := by
  intro q
  refine ⟨classify_with_keywords_mem q, keywordLoop_eq_find _ _, ?_⟩
  intro v hv
  apply searchWord_iff
  have hne : ∀ v ∈ CLASSIFIER_CATEGORIES, _normalize_text v ≠ [] := by decide
  exact hne v hv

/-- Witness for C2 at the query `"les sports"` and the category `"sport"`. -/
theorem classify_with_keywords_spec_witness :
    classify_with_keywords "les sports".toList ∈ CLASSIFIER_CATEGORIES ∧
    (searchWord (_normalize_text "sport".toList)
        (_normalize_text "les sports".toList) = true ↔
      wordOccurs (_normalize_text "sport".toList)
        (_normalize_text "les sports".toList)) :=
  ⟨(classify_with_keywords_spec "les sports".toList).1,
   (classify_with_keywords_spec "les sports".toList).2.2 "sport".toList
     (by decide)⟩

/-- C3 (counterexample).  On the query from the spec's example, the keyword
classifier does not return `"sport"`: it matches only category labels as
whole words and never consults `CATEGORY_TERMS`, and no label occurs in the
query. -/
theorem classify_with_keywords_tennis_not_sport :
    classify_with_keywords "je cherche des infos sur le tennis".toList ≠
      "sport".toList := by decide

/-- C3 (amended).  `"tennis"` does sit in the sport entry of
`CATEGORY_TERMS`, but `classify_with_keywords` never consults that table, so
`classify_with_keywords "je cherche des infos sur le tennis"` returns the
catch-all `"autre"`. -/
theorem classify_with_keywords_tennis_autre :
    "tennis".toList ∈
      ((CATEGORY_TERMS.find? (fun p => p.1 = "sport".toList)).map
          Prod.snd).getD [] ∧
    classify_with_keywords "je cherche des infos sur le tennis".toList =
      "autre".toList := by
  constructor
  · decide
  · decide

/-- C4.  On the empty query, `classify_query_with_mistral` returns exactly
`("autre", "no_query")`, for every configuration and oracle behaviour, and
the remote classifier is not invoked. -/
theorem classify_query_with_mistral_empty_query :
    ∀ (mistralOk : Bool) (oracle : MistralOutcome),
      classify_query_with_mistral [] mistralOk oracle =
        ⟨"autre".toList, "no_query".toList, false⟩ := by
  intro _ _
  rfl

/-- C5 (counterexample).  With the remote classifier unavailable and a
nonempty query, the diagnostic component is not `"service_unavailable"` as
the claim states. -/
theorem classify_query_unavailable_tag_cex :
    (classify_query_with_mistral ('x' :: []) false (.returned [])).raw ≠
      "service_unavailable".toList := by decide

/-- C5 (amended).  When the remote classifier is unavailable, the category
returned by `classify_query_with_mistral` equals `classify_with_keywords`
of the query for every query, and for every nonempty query the diagnostic
component is tagged `"mistral_unavailable"` (the empty query is answered
`"no_query"` before the availability check). -/
theorem classify_query_unavailable_fallback :
    ∀ (q : Str) (oracle : MistralOutcome),
      (classify_query_with_mistral q false oracle).category =
        classify_with_keywords q ∧
      (q ≠ [] →
        (classify_query_with_mistral q false oracle).raw =
          "mistral_unavailable".toList) := by
  intro q oracle
  by_cases hq : q = []
  · subst hq
    constructor
    · have h : classify_query_with_mistral [] false oracle =
          ⟨"autre".toList, "no_query".toList, false⟩ := rfl
      rw [h]
      decide
    · intro h
      exact absurd rfl h
  · constructor
    · unfold classify_query_with_mistral
      rw [if_neg hq]
      rfl
    · intro _
      unfold classify_query_with_mistral
      rw [if_neg hq]
      rfl

/-- Witness for C5 (amended) at the query `"x"`. -/
theorem classify_query_unavailable_fallback_witness :
    (classify_query_with_mistral ('x' :: []) false (.returned [])).raw =
      "mistral_unavailable".toList :=
  (classify_query_unavailable_fallback ('x' :: []) (.returned [])).2 (by decide)

/-- C6.  `fetch_news` never raises: for every position of a source whose
feed has a structural parse failure (`bozo`), the aggregate equals the
articles of the preceding sources, then exactly one placeholder article for
the failing source, then the articles of the following sources; the
placeholder carries the `"erreur"` tag; and an unexpected failure of the
whole pipeline yields the single fallback article instead of an
exception. -/
theorem fetch_news_error_isolation :
    (∀ (now pre : _) (name : Str) (es : List Entry)
        (post : List (Str × FeedResult)),
       fetch_news now (.ok (pre ++ (name, FeedResult.parsed true es) :: post)) =
         fetch_news now (.ok pre) ++ [errArticle name now] ++
           fetch_news now (.ok post)) ∧
    (∀ (name now : Str), (errArticle name now).tags = ["erreur".toList]) ∧
    (∀ (now msg : Str), fetch_news now (.error msg) = [fallbackArticle now]) := by
  refine ⟨?_, fun _ _ => rfl, fun _ _ => rfl⟩
  intro now pre name es post
  show fetchSources now (pre ++ (name, FeedResult.parsed true es) :: post) = _
  rw [show (name, FeedResult.parsed true es) :: post =
        ((name, FeedResult.parsed true es) :: []) ++ post from rfl,
      ← List.append_assoc, fetchSources_append, fetchSources_append]
  rfl

/-- C7.  The topic filter always returns a subsequence of its input in the
original order, and the empty topic is the identity. -/
theorem filter_articles_by_topic_sublist_id :
    ∀ (articles : List Article) (topic : Str),
      List.Sublist (filter_articles_by_topic articles topic) articles ∧
      filter_articles_by_topic articles [] = articles := by
  intro articles topic
  constructor
  · unfold filter_articles_by_topic
    by_cases h : topic = []
    · rw [if_pos h]
    · rw [if_neg h]
      exact List.filter_sublist articles
  · rfl

/-- C8.  `get_cached_news` returns the cached data exactly when the data is
present and the elapsed time since the stored timestamp is strictly below
the fixed five-minute duration; in every other state it returns the
cache-miss signal `none`. -/
theorem get_cached_news_iff :
    ∀ (c : NewsCache) (now : Int) (d : List Article),
      get_cached_news c now = some d ↔
        (c.data = some d ∧
          ∃ t, c.timestamp = some t ∧ now - t < cache_duration) := by
  intro c now d
  obtain ⟨data, ts⟩ := c
  cases data with
  | none => simp [get_cached_news]
  | some d0 =>
    cases ts with
    | none => simp [get_cached_news]
    | some t0 =>
      by_cases h : now - t0 < cache_duration
      · simp [get_cached_news, h]
      · simp [get_cached_news, h]

/-- Witness for C8: a fresh entry within the TTL is returned unchanged. -/
theorem get_cached_news_iff_witness :
    get_cached_news ⟨some [], some 0⟩ 10 = some [] :=
  (get_cached_news_iff ⟨some [], some 0⟩ 10 []).mpr
    ⟨rfl, 0, rfl, by decide⟩

/-- C9.  A `GET /api/news` request whose `limit` parameter is present but
not parseable by `int()` is answered with HTTP 400 and the structured body
`{'error': 'Paramètre invalide'}`, regardless of the other parameters and
of the feed contents; the default of 20 is not applied. -/
theorem get_news_invalid_limit_400 :
    ∀ (p : NewsParams) (now : Str)
      (feeds : Except Str (List (Str × FeedResult))) (s : Str),
      p.limit = some s → pyInt s = none →
      get_news_handler p now feeds =
        .badRequest "Paramètre invalide".toList := by
  intro p now feeds s hl hp
  unfold get_news_handler
  simp only [hl, hp]

/-- Witness for C9 at `limit = "abc"`. -/
theorem get_news_invalid_limit_400_witness :
    get_news_handler ⟨none, none, some "abc".toList⟩ [] (.ok []) =
      .badRequest "Paramètre invalide".toList :=
  get_news_invalid_limit_400 ⟨none, none, some "abc".toList⟩ [] (.ok [])
    "abc".toList rfl (by decide)

/-- C10.  A source whose feed parses without structural error but has zero
entries contributes neither articles nor a placeholder: the aggregate is
the same as if the source were absent from the list. -/
theorem fetch_news_empty_source_skipped :
    ∀ (now : Str) (pre : List (Str × FeedResult)) (name : Str)
      (post : List (Str × FeedResult)),
      fetch_news now (.ok (pre ++ (name, FeedResult.parsed false []) :: post)) =
        fetch_news now (.ok (pre ++ post)) := by
  intro now pre name post
  show fetchSources now (pre ++ (name, FeedResult.parsed false []) :: post) =
    fetchSources now (pre ++ post)
  rw [show (name, FeedResult.parsed false []) :: post =
        ((name, FeedResult.parsed false []) :: []) ++ post from rfl,
      ← List.append_assoc, fetchSources_append, fetchSources_append,
      fetchSources_append]
  simp [fetchSources, perSource]

end VoiceApp
